import Mathlib

/-!
Verification of the genetic sequence analyzer (src/main.py) against its
natural-language specification.  Sequences are modelled as `List Char`
(Python `str`), numeric results as `ℚ` (Python floats, computed here in
exact rational arithmetic), and the analysis worker as a function
returning `Except ComputationError AnalysisResult`.
-/

namespace Genetic

/-- The IUPAC nucleotide alphabet listed in the spec's code table
(16 entries): A,T,C,G,U,N,S,K,Y,W,R,M,B,D,H,V. -/
def iupacAlphabet : List Char :=
  ['A', 'T', 'C', 'G', 'U', 'N', 'S', 'K', 'Y', 'W', 'R', 'M', 'B', 'D', 'H', 'V']

/-- Python `'U' in self.sequence` (main.py line 49): the sequence is
classified RNA iff it contains at least one 'U'. -/
def isRNA (s : List Char) : Bool := s.contains 'U'

/-- The character translation performed by
`str.maketrans('ATGCU', 'TACGA' if not is_rna else 'UACGA')`
(main.py line 78).  Exactly the five listed characters are substituted;
every other character maps to itself. -/
def complementChar (rna : Bool) (c : Char) : Char :=
  if rna then
    if c = 'A' then 'U'
    else if c = 'T' then 'A'
    else if c = 'G' then 'C'
    else if c = 'C' then 'G'
    else if c = 'U' then 'A'
    else c
  else
    if c = 'A' then 'T'
    else if c = 'T' then 'A'
    else if c = 'G' then 'C'
    else if c = 'C' then 'G'
    else if c = 'U' then 'A'
    else c

/-- `self.sequence.translate(...)` (main.py line 78). -/
def complementOf (s : List Char) : List Char := s.map (complementChar (isRNA s))

/-- `complement[::-1]` (main.py line 79). -/
def reverseComplementOf (s : List Char) : List Char := (complementOf s).reverse

/-- `self.sequence.replace('T', 'U') if not is_rna else self.sequence`
(main.py line 80); a single-character replace is a character map. -/
def transcriptionOf (s : List Char) : List Char :=
  if isRNA s then s else s.map (fun c => if c = 'T' then 'U' else c)

/-- The index set of Python `range(0, len(s) - 2, 3)` (main.py line 62):
the multiples of 3 that are smaller than `len(s) - 2`, in increasing
order.  `i + 2 < n` is `i < n - 2` without truncated subtraction. -/
def codonIdx (n : Nat) : List Nat :=
  (List.range n).filter (fun i => i % 3 == 0 && i + 2 < n)

/-- `[self.sequence[i:i+3] for i in range(0, len(self.sequence) - 2, 3)]`
(main.py line 62); the Python slice `s[i:i+3]` is `(s.drop i).take 3`. -/
def codons (s : List Char) : List (List Char) :=
  (codonIdx s.length).map (fun i => (s.drop i).take 3)

/-- The only exception reachable inside `AnalysisWorker.run`'s `try`
block: `ZeroDivisionError` at the `gc_content` line when the sequence is
empty.  The broad `except` handler (main.py lines 102-103) turns it into
an error emission carrying no statistics. -/
inductive ComputationError where
  | zeroLength
deriving DecidableEq, Repr

/-- The results dictionary emitted by `AnalysisWorker.run`
(main.py lines 82-97); Counters are modelled as count functions. -/
structure AnalysisResult where
  length : Nat
  gc_content : ℚ
  at_skew : ℚ
  gc_skew : ℚ
  nucleotide_counts : Char → Nat
  nucleotide_percentages : Char → ℚ
  codon_counts : List Char → Nat
  sequence : List Char
  filtered_sequence : List Char
  n_count : Nat
  sequence_type : String
  complement : List Char
  reverse_complement : List Char
  transcription : List Char

/-- `AnalysisWorker.run` (main.py lines 42-103).  Mirrors the body of the
`try` block statement by statement; the first (and only) fallible
statement is the division by `length` in `gc_content`, so an empty
sequence yields the error emission and any other sequence the full
results dictionary.  Python float arithmetic is modelled exactly in `ℚ`
(`1e-6` as `1 / 1000000`). -/
def analyze (s : List Char) : Except ComputationError AnalysisResult :=
  if s.length = 0 then .error .zeroLength
  else
    let length := s.length
    let is_rna := isRNA s
    let sequence_type := if is_rna then "RNA" else "DNA"
    let gc_content : ℚ := ((s.count 'G' + s.count 'C' : ℚ) / length) * 100
    let nucleotide_counts : Char → Nat := fun c => s.count c
    let nucleotide_percentages : Char → ℚ := fun c => ((s.count c : ℚ) / length) * 100
    let codon_counts : List Char → Nat := fun w => (codons s).count w
    let eps : ℚ := 1 / 1000000
    let at_skew : ℚ :=
      ((s.count 'A' : ℚ) - (s.count 'T' : ℚ)) / ((s.count 'A' : ℚ) + (s.count 'T' : ℚ) + eps)
    let gc_skew : ℚ :=
      ((s.count 'G' : ℚ) - (s.count 'C' : ℚ)) / ((s.count 'G' : ℚ) + (s.count 'C' : ℚ) + eps)
    let n_count := s.count 'N'
    let filtered_sequence := s.filter (fun c => c != 'N')
    let complement := s.map (complementChar is_rna)
    let reverse_complement := complement.reverse
    let transcription := if is_rna then s else s.map (fun c => if c = 'T' then 'U' else c)
    .ok
      { length := length
        gc_content := gc_content
        at_skew := at_skew
        gc_skew := gc_skew
        nucleotide_counts := nucleotide_counts
        nucleotide_percentages := nucleotide_percentages
        codon_counts := codon_counts
        sequence := s
        filtered_sequence := filtered_sequence
        n_count := n_count
        sequence_type := sequence_type
        complement := complement
        reverse_complement := reverse_complement
        transcription := transcription }

/-- ASCII whitespace removed by Python `str.strip()` (the inputs this
program meets are ASCII). -/
def isSpaceChar (c : Char) : Bool :=
  c = ' ' || c = '\t' || c = '\n' || c = '\r' || c = '\x0b' || c = '\x0c'

/-- Python `str.strip()`: drop whitespace from both ends only. -/
def pythonStrip (s : List Char) : List Char :=
  ((s.dropWhile isSpaceChar).reverse.dropWhile isSpaceChar).reverse

/-- Python `str.upper()` restricted to ASCII, which is all this program
handles: uppercase the letters a-z, leave everything else unchanged. -/
def pyUpper (c : Char) : Char := c.toUpper

/-- Outcome of the GUI dispatch: either an error frame is shown, or the
analysis worker is started on the given sequence. -/
inductive TextInputOutcome where
  | rejected (msg : String)
  | analyzed (seq : List Char)
deriving DecidableEq, Repr

/-- The raw-text branch of `GeneticAnalyzerGUI.analyze_sequence`
(main.py lines 473-489): strip, reject empty input, reject interior
spaces, reject fewer than 10 characters, else upper-case and start the
worker. -/
def analyze_sequence_text (raw : List Char) : TextInputOutcome :=
  let sequence := pythonStrip raw
  if sequence = [] then .rejected "Please enter a sequence"
  else if sequence.contains ' ' then .rejected "Sequence cannot contain spaces"
  else if sequence.length < 10 then .rejected "Sequence must be at least 10 characters long"
  else .analyzed (sequence.map pyUpper)

/-- `GeneticAnalyzerGUI.analyze_sequence` (main.py lines 453-489): when a
file is selected, the successfully loaded record's sequence goes straight
to `start_analysis` (main.py lines 470, 495-500) with no emptiness,
whitespace or length check; otherwise the raw-text branch runs.  (A file
read failure goes to `file_load_error`, which never starts the worker.) -/
def analyze_sequence_dispatch (currentFile : Option (List Char)) (raw : List Char) :
    TextInputOutcome :=
  match currentFile with
  | some fileSeq => .analyzed fileSeq
  | none => analyze_sequence_text raw

/-- The index set of Python `range(0, len(s), 80)`
(main.py line 1049): the multiples of 80 below `len(s)`, increasing. -/
def fastaIdx (n : Nat) : List Nat :=
  (List.range n).filter (fun i => i % 80 == 0)

/-- The body lines written by `GeneticAnalyzerGUI.save_sequence`
(main.py lines 1049-1050): the 80-character chunks `sequence[i:i+80]`. -/
def fastaBody (s : List Char) : List (List Char) :=
  (fastaIdx s.length).map (fun i => (s.drop i).take 80)

/-- The full FASTA file content written by `save_sequence`
(main.py lines 1046-1050): the header `>` ++ label ++ newline, then each
body chunk followed by a newline. -/
def fastaFile (label s : List Char) : List Char :=
  ('>' :: label ++ ['\n']) ++ (fastaBody s).flatMap (fun l => l ++ ['\n'])

/-- The DNA complement mapping exactly as the spec words it (section 4.2
step 7): A to T, T to A, G to C, C to G, everything else unchanged.
Stated for comparison with the translation the code performs. -/
def specComplementDNA (c : Char) : Char :=
  if c = 'A' then 'T' else if c = 'T' then 'A'
  else if c = 'G' then 'C' else if c = 'C' then 'G' else c

/-- The RNA complement mapping exactly as the spec words it (section 4.2
step 7): A to U, U to A, G to C, C to G, everything else unchanged.
Stated for comparison with the translation the code performs. -/
def specComplementRNA (c : Char) : Char :=
  if c = 'A' then 'U' else if c = 'U' then 'A'
  else if c = 'G' then 'C' else if c = 'C' then 'G' else c

/-! ### Concrete inputs used by the testable properties -/

/-- The spec's worked example sequence "ACGTACGTAC". -/
def ex10 : List Char := ['A', 'C', 'G', 'T', 'A', 'C', 'G', 'T', 'A', 'C']

/-- The spec's worked example sequence "AAAAAAAAAA". -/
def a10 : List Char := ['A', 'A', 'A', 'A', 'A', 'A', 'A', 'A', 'A', 'A']

/-- A sequence with characters outside the IUPAC alphabet ('X' at
positions 4 and 9). -/
def cInvalid : List Char := ['A', 'C', 'G', 'T', 'X', 'A', 'C', 'G', 'T', 'X']

/-- A raw input with an interior newline. -/
def cNL : List Char := ['A', 'C', 'G', 'T', '\n', 'A', 'C', 'G', 'T', 'A', 'C']

/-- The all-uracil sequence of length 10. -/
def u10 : List Char := ['U', 'U', 'U', 'U', 'U', 'U', 'U', 'U', 'U', 'U']

/-- An RNA-classified sequence that also contains a 'T'. -/
def rnaT : List Char := ['U', 'U', 'U', 'U', 'U', 'U', 'U', 'U', 'U', 'T']

/-- An RNA sequence over A,U,G,C containing both 'A' and 'U'. -/
def rna10 : List Char := ['A', 'U', 'G', 'C', 'A', 'U', 'G', 'C', 'A', 'U']

/-- A 90-character sequence for the FASTA wrapping property. -/
def seq90 : List Char := List.replicate 90 'A'

/-! ### Helper lemmas -/

theorem mem_contains_char (s : List Char) (c : Char) : s.contains c = true ↔ c ∈ s := by
  simp [List.contains]

theorem isRNA_false_iff (s : List Char) : isRNA s = false ↔ 'U' ∉ s := by
  unfold isRNA
  rw [← Bool.not_eq_true, mem_contains_char]

theorem isRNA_true_iff (s : List Char) : isRNA s = true ↔ 'U' ∈ s := by
  unfold isRNA
  rw [mem_contains_char]

theorem complementChar_false_ne_U (c : Char) : complementChar false c ≠ 'U' := by
  unfold complementChar
  split_ifs <;> simp_all

theorem complementChar_dna_eq_spec (c : Char) (h : c ≠ 'U') :
    complementChar false c = specComplementDNA c := by
  unfold complementChar specComplementDNA
  split_ifs <;> simp_all

theorem complementChar_rna_eq (c : Char) :
    complementChar true c = if c = 'T' then 'A' else specComplementRNA c := by
  unfold complementChar specComplementRNA
  split_ifs <;> simp_all

theorem complementChar_fixes_outside (b : Bool) (c : Char)
    (h : c ∉ (['A', 'T', 'G', 'C', 'U'] : List Char)) : complementChar b c = c := by
  simp only [List.mem_cons, List.not_mem_nil, or_false, not_or] at h
  obtain ⟨h1, h2, h3, h4, h5⟩ := h
  unfold complementChar
  cases b <;> simp [h1, h2, h3, h4, h5]

/-- The multiples of 3 below `m`, in order. -/
theorem filter_mul3 (m : Nat) :
    (List.range m).filter (fun i => i % 3 == 0) =
      (List.range ((m + 2) / 3)).map (fun k => 3 * k) := by
  induction m with
  | zero => rfl
  | succ m ih =>
    rw [List.range_succ, List.filter_append, ih, List.filter]
    by_cases h : m % 3 = 0
    · have h1 : (m + 1 + 2) / 3 = (m + 2) / 3 + 1 := by omega
      have h2 : 3 * ((m + 2) / 3) = m := by omega
      rw [h1, List.range_succ, List.map_append]
      simp [h, h2]
    · have h1 : (m + 1 + 2) / 3 = (m + 2) / 3 := by omega
      have hb : (m % 3 == 0) = false := by simpa using h
      simp [hb, h1]

/-- The multiples of 80 below `m`, in order. -/
theorem filter_mul80 (m : Nat) :
    (List.range m).filter (fun i => i % 80 == 0) =
      (List.range ((m + 79) / 80)).map (fun k => 80 * k) := by
  induction m with
  | zero => rfl
  | succ m ih =>
    rw [List.range_succ, List.filter_append, ih, List.filter]
    by_cases h : m % 80 = 0
    · have h1 : (m + 1 + 79) / 80 = (m + 79) / 80 + 1 := by omega
      have h2 : 80 * ((m + 79) / 80) = m := by omega
      rw [h1, List.range_succ, List.map_append]
      simp [h, h2]
    · have h1 : (m + 1 + 79) / 80 = (m + 79) / 80 := by omega
      have hb : (m % 80 == 0) = false := by simpa using h
      simp [hb, h1]

/-- Python `range(0, n - 2, 3)` enumerates `3 * k` for `k` below
`n / 3`. -/
theorem codonIdx_eq (n : Nat) :
    codonIdx n = (List.range (n / 3)).map (fun k => 3 * k) := by
  match n with
  | 0 => rfl
  | 1 => rfl
  | (m + 2) =>
    have step1 : codonIdx (m + 2) = (List.range m).filter (fun i => i % 3 == 0) := by
      unfold codonIdx
      rw [List.range_add, List.filter_append]
      have he : ((List.range 2).map (fun x => m + x)).filter
          (fun i => i % 3 == 0 && i + 2 < m + 2) = [] := by
        have hr2 : (List.range 2).map (fun x => m + x) = [m + 0, m + 1] := rfl
        rw [hr2]
        have h0 : ¬ (m + 0 + 2 < m + 2) := by omega
        have h1 : ¬ (m + 1 + 2 < m + 2) := by omega
        simp [List.filter, h0, h1]
      rw [he, List.append_nil]
      apply List.filter_congr
      intro i hi
      have : i + 2 < m + 2 := by
        have := List.mem_range.mp hi
        omega
      simp [this]
    rw [step1, filter_mul3]

theorem fastaBody_eq (s : List Char) :
    fastaBody s =
      (List.range ((s.length + 79) / 80)).map (fun k => (s.drop (80 * k)).take 80) := by
  unfold fastaBody fastaIdx
  rw [filter_mul80, List.map_map]
  rfl

theorem fastaBody_cons (s : List Char) (hs : s ≠ []) :
    fastaBody s = s.take 80 :: fastaBody (s.drop 80) := by
  have hlen : 0 < s.length := List.length_pos.mpr hs
  have hK : (s.length + 79) / 80 = ((s.drop 80).length + 79) / 80 + 1 := by
    rw [List.length_drop]; omega
  rw [fastaBody_eq, fastaBody_eq, hK, List.range_succ_eq_map, List.map_cons, List.map_map]
  refine congrArg₂ _ (by simp) ?_
  apply List.map_congr_left
  intro k _
  have harith : 80 * Nat.succ k = 80 + 80 * k := by omega
  simp [Function.comp, List.drop_drop, harith]

theorem fastaBody_flatten_aux : ∀ (n : Nat) (s : List Char), s.length ≤ n →
    (fastaBody s).flatten = s := by
  intro n
  induction n with
  | zero =>
    intro s h
    have : s = [] := List.eq_nil_of_length_eq_zero (by omega)
    subst this; rfl
  | succ n ih =>
    intro s h
    by_cases hs : s = []
    · subst hs; rfl
    · rw [fastaBody_cons s hs, List.flatten_cons,
        ih (s.drop 80) (by rw [List.length_drop]; have := List.length_pos.mpr hs; omega),
        List.take_append_drop]

theorem fastaBody_flatten (s : List Char) : (fastaBody s).flatten = s :=
  fastaBody_flatten_aux s.length s le_rfl

theorem pythonStrip_decomposition (s : List Char) :
    ∃ pre post, s = pre ++ pythonStrip s ++ post ∧
      pre.all isSpaceChar = true ∧ post.all isSpaceChar = true := by
  refine ⟨s.takeWhile isSpaceChar,
    ((s.dropWhile isSpaceChar).reverse.takeWhile isSpaceChar).reverse, ?_, ?_, ?_⟩
  · conv_lhs => rw [← List.takeWhile_append_dropWhile (p := isSpaceChar) (l := s)]
    rw [List.append_assoc]
    congr 1
    conv_lhs => rw [← List.reverse_reverse (s.dropWhile isSpaceChar)]
    conv_lhs =>
      rw [← List.takeWhile_append_dropWhile (p := isSpaceChar)
        (l := (s.dropWhile isSpaceChar).reverse)]
    rw [List.reverse_append]
    rfl
  · exact List.all_takeWhile
  · rw [List.all_reverse]; exact List.all_takeWhile

theorem pythonStrip_all_space (s : List Char) (h : s.all isSpaceChar = true) :
    pythonStrip s = [] := by
  unfold pythonStrip
  have h1 : s.dropWhile isSpaceChar = [] := by
    rw [List.dropWhile_eq_nil_iff]
    exact fun x hx => List.all_eq_true.mp h x hx
  rw [h1]
  rfl

/-! ### Claims -/

/-- Claim C1, counterexample.  The sequence "ACGTXACGTX" contains 'X',
which is outside the IUPAC alphabet, yet the engine returns a fully
populated result record instead of failing with a validation error. -/
theorem c1_counterexample :
    ('X' ∈ cInvalid ∧ 'X' ∉ iupacAlphabet) ∧
    ∃ r, analyze cInvalid = Except.ok r ∧ r.length = 10 ∧ r.n_count = 0 := by
  refine ⟨⟨by decide, by decide⟩, _, rfl, by decide, by decide⟩

/-- Claim C1, amended.  `AnalysisWorker.run` performs no IUPAC
validation: for every non-empty sequence, even one containing characters
outside the IUPAC alphabet, the engine computes and returns the complete
statistics record. -/
theorem c1_no_validation_in_engine (s : List Char) (hne : s ≠ [])
    (_hinv : ∃ c ∈ s, c ∉ iupacAlphabet) :
    ∃ r, analyze s = Except.ok r ∧ r.sequence = s ∧ r.length = s.length := by
  have hlen : s.length ≠ 0 := fun h => hne (List.eq_nil_of_length_eq_zero h)
  unfold analyze
  rw [if_neg hlen]
  exact ⟨_, rfl, rfl, rfl⟩

/-- Witness for `c1_no_validation_in_engine` at "ACGTXACGTX". -/
theorem c1_no_validation_in_engine_witness :
    ∃ r, analyze cInvalid = Except.ok r ∧ r.sequence = cInvalid ∧
      r.length = cInvalid.length :=
  c1_no_validation_in_engine cInvalid (by decide) ⟨'X', by decide, by decide⟩

/-- Claim C5, counterexample.  On "ACGTACGTAC" the code computes
gc_content = (2 + 3) / 10 * 100 = 50.0, not the 40.0 the claim states. -/
theorem c5_counterexample :
    ∃ r, analyze ex10 = Except.ok r ∧ r.gc_content = 50 ∧ ¬ r.gc_content = 40 := by
  have hg : ex10.count 'G' = 2 := by decide
  have hc : ex10.count 'C' = 3 := by decide
  have hl : ex10.length = 10 := by decide
  refine ⟨_, rfl, ?_, ?_⟩
  · show ((ex10.count 'G' + ex10.count 'C' : ℚ) / (ex10.length : ℚ)) * 100 = 50
    rw [hg, hc, hl]; norm_num
  · show ¬ ((ex10.count 'G' + ex10.count 'C' : ℚ) / (ex10.length : ℚ)) * 100 = 40
    rw [hg, hc, hl]; norm_num

/-- Claim C5, amended.  Codon tabulation partitions the sequence into
non-overlapping 3-character windows at indices 0, 3, 6, ..., dropping a
trailing fragment shorter than 3 characters; on "ACGTACGTAC" the engine
returns length 10, gc_content 50.0 (not the claim's 40.0),
sequence_type DNA, n_count 0, and codon counts ACG, TAC, GTA once each,
exactly floor(10/3) = 3 codons from windows 0, 3, 6. -/
theorem c5_codon_partition :
    (∀ s : List Char,
      codons s = (List.range (s.length / 3)).map (fun k => (s.drop (3 * k)).take 3)) ∧
    ∃ r, analyze ex10 = Except.ok r ∧ r.length = 10 ∧ r.gc_content = 50 ∧
      r.sequence_type = "DNA" ∧ r.n_count = 0 ∧
      codons ex10 = [['A', 'C', 'G'], ['T', 'A', 'C'], ['G', 'T', 'A']] ∧
      r.codon_counts ['A', 'C', 'G'] = 1 ∧ r.codon_counts ['T', 'A', 'C'] = 1 ∧
      r.codon_counts ['G', 'T', 'A'] = 1 ∧ (codons ex10).length = 10 / 3 := by
  constructor
  · intro s
    unfold codons
    rw [codonIdx_eq, List.map_map]
    rfl
  · refine ⟨_, rfl, by decide, ?_, by decide, by decide, by decide, by decide, by decide,
      by decide, by decide⟩
    show ((ex10.count 'G' + ex10.count 'C' : ℚ) / (ex10.length : ℚ)) * 100 = 50
    have hg : ex10.count 'G' = 2 := by decide
    have hc : ex10.count 'C' = 3 := by decide
    have hl : ex10.length = 10 := by decide
    rw [hg, hc, hl]; norm_num

/-- Claim C6.  The skew metrics are the epsilon-stabilised quotients
(count A - count T) / (count A + count T + 1e-6) and
(count G - count C) / (count G + count C + 1e-6); both denominators are
strictly positive (no division by zero), both skews have absolute value
strictly below 1, a skew is exactly 0 when its base pair is absent, and
on "AAAAAAAAAA" at_skew = 10 / (10 + 1e-6) = 10000000/10000001 while
gc_skew = 0.  Arithmetic is modelled in exact rationals. -/
theorem c6_skew_metrics :
    (∀ (s : List Char) (r : AnalysisResult), analyze s = Except.ok r →
      r.at_skew = ((s.count 'A' : ℚ) - (s.count 'T' : ℚ)) /
          ((s.count 'A' : ℚ) + (s.count 'T' : ℚ) + 1 / 1000000) ∧
      r.gc_skew = ((s.count 'G' : ℚ) - (s.count 'C' : ℚ)) /
          ((s.count 'G' : ℚ) + (s.count 'C' : ℚ) + 1 / 1000000) ∧
      0 < (s.count 'A' : ℚ) + (s.count 'T' : ℚ) + 1 / 1000000 ∧
      0 < (s.count 'G' : ℚ) + (s.count 'C' : ℚ) + 1 / 1000000 ∧
      |r.at_skew| < 1 ∧ |r.gc_skew| < 1 ∧
      (s.count 'A' = 0 → s.count 'T' = 0 → r.at_skew = 0) ∧
      (s.count 'G' = 0 → s.count 'C' = 0 → r.gc_skew = 0)) ∧
    ∃ r, analyze a10 = Except.ok r ∧
      r.at_skew = 10000000 / 10000001 ∧ r.gc_skew = 0 := by
  constructor
  · intro s r h
    unfold analyze at h
    by_cases hs : s.length = 0
    · rw [if_pos hs] at h; exact Except.noConfusion h
    · rw [if_neg hs] at h
      injection h with h
      subst h
      have ha : (0 : ℚ) ≤ (s.count 'A' : ℚ) := Nat.cast_nonneg _
      have ht : (0 : ℚ) ≤ (s.count 'T' : ℚ) := Nat.cast_nonneg _
      have hg : (0 : ℚ) ≤ (s.count 'G' : ℚ) := Nat.cast_nonneg _
      have hc : (0 : ℚ) ≤ (s.count 'C' : ℚ) := Nat.cast_nonneg _
      have heps : (0 : ℚ) < 1 / 1000000 := by norm_num
      have hpos1 : 0 < (s.count 'A' : ℚ) + (s.count 'T' : ℚ) + 1 / 1000000 := by positivity
      have hpos2 : 0 < (s.count 'G' : ℚ) + (s.count 'C' : ℚ) + 1 / 1000000 := by positivity
      refine ⟨rfl, rfl, hpos1, hpos2, ?_, ?_, ?_, ?_⟩
      · show |((s.count 'A' : ℚ) - (s.count 'T' : ℚ)) /
            ((s.count 'A' : ℚ) + (s.count 'T' : ℚ) + 1 / 1000000)| < 1
        rw [abs_div, abs_of_pos hpos1, div_lt_one hpos1, abs_lt]
        constructor <;> linarith
      · show |((s.count 'G' : ℚ) - (s.count 'C' : ℚ)) /
            ((s.count 'G' : ℚ) + (s.count 'C' : ℚ) + 1 / 1000000)| < 1
        rw [abs_div, abs_of_pos hpos2, div_lt_one hpos2, abs_lt]
        constructor <;> linarith
      · intro h1 h2
        show ((s.count 'A' : ℚ) - (s.count 'T' : ℚ)) /
            ((s.count 'A' : ℚ) + (s.count 'T' : ℚ) + 1 / 1000000) = 0
        rw [h1, h2]; norm_num
      · intro h1 h2
        show ((s.count 'G' : ℚ) - (s.count 'C' : ℚ)) /
            ((s.count 'G' : ℚ) + (s.count 'C' : ℚ) + 1 / 1000000) = 0
        rw [h1, h2]; norm_num
  · have hA : a10.count 'A' = 10 := by decide
    have hT : a10.count 'T' = 0 := by decide
    have hG : a10.count 'G' = 0 := by decide
    have hC : a10.count 'C' = 0 := by decide
    refine ⟨_, rfl, ?_, ?_⟩
    · show ((a10.count 'A' : ℚ) - (a10.count 'T' : ℚ)) /
          ((a10.count 'A' : ℚ) + (a10.count 'T' : ℚ) + 1 / 1000000) = 10000000 / 10000001
      rw [hA, hT]; norm_num
    · show ((a10.count 'G' : ℚ) - (a10.count 'C' : ℚ)) /
          ((a10.count 'G' : ℚ) + (a10.count 'C' : ℚ) + 1 / 1000000) = 0
      rw [hG, hC]; norm_num

/-- Witness for `c6_skew_metrics` at "AAAAAAAAAA". -/
theorem c6_skew_metrics_witness :
    ∃ r, analyze a10 = Except.ok r ∧ |r.at_skew| < 1 ∧ |r.gc_skew| < 1 ∧ r.gc_skew = 0 := by
  refine ⟨_, rfl, ?_, ?_, ?_⟩
  · exact (c6_skew_metrics.1 a10 _ rfl).2.2.2.2.1
  · exact (c6_skew_metrics.1 a10 _ rfl).2.2.2.2.2.1
  · exact (c6_skew_metrics.1 a10 _ rfl).2.2.2.2.2.2.2 (by decide) (by decide)

/-- Claim C2, counterexample.  The raw input "ACGT\nACGTAC" contains an
interior newline, a whitespace character; the code does not remove it
but passes the sequence, newline included, to the analysis worker. -/
theorem c2_counterexample :
    analyze_sequence_text cNL = TextInputOutcome.analyzed cNL ∧
    '\n' ∈ cNL ∧ isSpaceChar '\n' = true := by decide

/-- Claim C2, amended.  The input normalization of the raw-text path
removes only leading and trailing whitespace (`strip`) and then
upper-cases; whenever the worker is started, its input is exactly
`map pyUpper (pythonStrip raw)`, so interior whitespace other than the
space character (which is rejected, not removed) survives.  Empty and
whitespace-only input is rejected with an error message rather than
normalized to an empty sequence. -/
theorem c2_normalization (raw : List Char) :
    (∀ seq, analyze_sequence_text raw = TextInputOutcome.analyzed seq →
      seq = (pythonStrip raw).map pyUpper) ∧
    (raw.all isSpaceChar = true →
      analyze_sequence_text raw = TextInputOutcome.rejected "Please enter a sequence") ∧
    (∃ pre post, raw = pre ++ pythonStrip raw ++ post ∧
      pre.all isSpaceChar = true ∧ post.all isSpaceChar = true) := by
  refine ⟨?_, ?_, pythonStrip_decomposition raw⟩
  · intro seq h
    simp only [analyze_sequence_text] at h
    split_ifs at h with h1 h2 h3
    injection h with h
    exact h.symm
  · intro h
    have h1 : pythonStrip raw = [] := pythonStrip_all_space raw h
    simp only [analyze_sequence_text, h1]
    rfl

/-- Witness for `c2_normalization` on "  ACGTACGTAC " (stripped and
analyzed) and on "  " (whitespace-only, rejected). -/
theorem c2_normalization_witness :
    ex10 = (pythonStrip ([' ', ' '] ++ ex10 ++ [' '])).map pyUpper ∧
    analyze_sequence_text [' ', ' '] = TextInputOutcome.rejected "Please enter a sequence" :=
  ⟨(c2_normalization ([' ', ' '] ++ ex10 ++ [' '])).1 ex10 (by decide),
   (c2_normalization [' ', ' ']).2.1 (by decide)⟩

/-- Claim C7, counterexample.  On the file-input path a successfully
loaded 3-character sequence "ACG" is handed to the analysis worker with
no minimum-length, emptiness or whitespace check, and the engine then
computes a result for it. -/
theorem c7_counterexample :
    analyze_sequence_dispatch (some ['A', 'C', 'G']) [] =
      TextInputOutcome.analyzed ['A', 'C', 'G'] ∧
    (['A', 'C', 'G'] : List Char).length < 10 ∧
    ∃ r, analyze ['A', 'C', 'G'] = Except.ok r := by
  refine ⟨rfl, by decide, _, rfl⟩

/-- Claim C7, amended.  Only the raw-text path rejects empty,
whitespace-only or shorter-than-10 input before the worker starts: a
sequence the text path hands to the worker is non-empty and at least 10
characters long, while the file path hands the loaded sequence to the
worker unconditionally. -/
theorem c7_minimum_length_guard :
    (∀ raw seq, analyze_sequence_text raw = TextInputOutcome.analyzed seq →
      seq ≠ [] ∧ 10 ≤ seq.length) ∧
    (∀ fileSeq raw, analyze_sequence_dispatch (some fileSeq) raw =
      TextInputOutcome.analyzed fileSeq) := by
  constructor
  · intro raw seq h
    simp only [analyze_sequence_text] at h
    split_ifs at h with h1 h2 h3
    injection h with h
    subst h
    constructor
    · intro hc
      apply h1
      have := congrArg List.length hc
      simp at this
      exact this
    · rw [List.length_map]
      omega
  · intro fileSeq raw
    rfl

/-- Witness for `c7_minimum_length_guard`: the text path on "ACGTACGTAC"
and the file path on "ACG". -/
theorem c7_minimum_length_guard_witness :
    (ex10 ≠ [] ∧ 10 ≤ ex10.length) ∧
    analyze_sequence_dispatch (some ['A', 'C', 'G']) [] =
      TextInputOutcome.analyzed ['A', 'C', 'G'] :=
  ⟨c7_minimum_length_guard.1 ex10 ex10 (by decide),
   c7_minimum_length_guard.2 ['A', 'C', 'G'] []⟩

/-- Claim C3, counterexample.  The sequence "UUUUUUUUUT" is classified
RNA; the claim says its 'T' is outside the RNA mapping and passes
through unchanged, but the code's translation table maps 'T' to 'A', so
the computed complement is all 'A' rather than ending in 'T'. -/
theorem c3_counterexample :
    isRNA rnaT = true ∧
    complementOf rnaT = ['A', 'A', 'A', 'A', 'A', 'A', 'A', 'A', 'A', 'A'] ∧
    rnaT.map specComplementRNA = ['A', 'A', 'A', 'A', 'A', 'A', 'A', 'A', 'A', 'T'] ∧
    complementOf rnaT ≠ rnaT.map specComplementRNA := by decide

/-- Claim C3, amended.  The complement is the character-wise application
of the code's five-entry translation table, which preserves length and
order and fixes every character outside A,T,G,C,U; on DNA-classified
sequences (which contain no 'U') it coincides with the spec's DNA
mapping, but on RNA-classified sequences 'T' is mapped to 'A' instead of
passing through unchanged. -/
theorem c3_complement_mapping :
    (∀ s : List Char, (complementOf s).length = s.length) ∧
    (∀ s : List Char, isRNA s = false → complementOf s = s.map specComplementDNA) ∧
    (∀ s : List Char, isRNA s = true →
      complementOf s = s.map (fun c => if c = 'T' then 'A' else specComplementRNA c)) ∧
    (∀ (b : Bool) (c : Char), c ∉ (['A', 'T', 'G', 'C', 'U'] : List Char) →
      complementChar b c = c) := by
  refine ⟨?_, ?_, ?_, complementChar_fixes_outside⟩
  · intro s
    exact List.length_map s _
  · intro s h
    have hU : 'U' ∉ s := (isRNA_false_iff s).mp h
    rw [complementOf, h]
    apply List.map_congr_left
    intro c hc
    exact complementChar_dna_eq_spec c (fun hcu => hU (hcu ▸ hc))
  · intro s h
    rw [complementOf, h]
    exact List.map_congr_left (fun c _ => complementChar_rna_eq c)

/-- Witness for `c3_complement_mapping` on "ACGTACGTAC" (DNA),
"UUUUUUUUUT" (RNA) and the ambiguity code 'N'. -/
theorem c3_complement_mapping_witness :
    complementOf ex10 = ex10.map specComplementDNA ∧
    complementOf rnaT = rnaT.map (fun c => if c = 'T' then 'A' else specComplementRNA c) ∧
    complementChar false 'N' = 'N' :=
  ⟨c3_complement_mapping.2.1 ex10 (by decide),
   c3_complement_mapping.2.2.1 rnaT (by decide),
   c3_complement_mapping.2.2.2 false 'N' (by decide)⟩

/-- Claim C4, counterexample.  The all-'U' sequence of length 10 is
drawn from A,T,G,C,U, but its complement is all 'A', which contains no
'U' and is therefore classified DNA by the second application, so the
double reverse complement is all 'T' instead of the original. -/
theorem c4_counterexample :
    (∀ c ∈ u10, c ∈ (['A', 'T', 'G', 'C', 'U'] : List Char)) ∧
    reverseComplementOf (reverseComplementOf u10) =
      ['T', 'T', 'T', 'T', 'T', 'T', 'T', 'T', 'T', 'T'] ∧
    reverseComplementOf (reverseComplementOf u10) ≠ u10 := by decide

/-- Claim C4, amended.  The reverse-complement round trip holds for
every sequence over A,T,G,C (classified DNA), and for every sequence
over A,U,G,C that contains both an 'A' and a 'U' (so that both
applications use the RNA table); it does not hold on all of A,T,G,C,U. -/
theorem c4_round_trip :
    (∀ s : List Char, (∀ c ∈ s, c ∈ (['A', 'T', 'G', 'C'] : List Char)) →
      reverseComplementOf (reverseComplementOf s) = s) ∧
    (∀ s : List Char, (∀ c ∈ s, c ∈ (['A', 'U', 'G', 'C'] : List Char)) →
      'A' ∈ s → 'U' ∈ s → reverseComplementOf (reverseComplementOf s) = s) := by
  constructor
  · intro s hall
    have hU : 'U' ∉ s := fun h => by have := hall 'U' h; simp at this
    have hrna : isRNA s = false := (isRNA_false_iff s).mpr hU
    have hcomp : complementOf s = s.map (complementChar false) := by
      rw [complementOf, hrna]
    have hU2 : 'U' ∉ (complementOf s).reverse := by
      rw [List.mem_reverse, hcomp]
      intro h
      obtain ⟨c, _, hc⟩ := List.mem_map.mp h
      exact complementChar_false_ne_U c hc
    have hrna2 : isRNA (complementOf s).reverse = false := (isRNA_false_iff _).mpr hU2
    rw [reverseComplementOf, reverseComplementOf, complementOf, hrna2, hcomp,
      List.map_reverse, List.reverse_reverse, List.map_map]
    conv_rhs => rw [← List.map_id s]
    apply List.map_congr_left
    intro c hc
    have := hall c hc
    simp only [List.mem_cons, List.not_mem_nil, or_false] at this
    rcases this with rfl | rfl | rfl | rfl <;> rfl
  · intro s hall hA hU
    have hrna : isRNA s = true := (isRNA_true_iff s).mpr hU
    have hcomp : complementOf s = s.map (complementChar true) := by
      rw [complementOf, hrna]
    have hU2 : 'U' ∈ (complementOf s).reverse := by
      rw [List.mem_reverse, hcomp]
      exact List.mem_map.mpr ⟨'A', hA, rfl⟩
    have hrna2 : isRNA (complementOf s).reverse = true := (isRNA_true_iff _).mpr hU2
    rw [reverseComplementOf, reverseComplementOf, complementOf, hrna2, hcomp,
      List.map_reverse, List.reverse_reverse, List.map_map]
    conv_rhs => rw [← List.map_id s]
    apply List.map_congr_left
    intro c hc
    have := hall c hc
    simp only [List.mem_cons, List.not_mem_nil, or_false] at this
    rcases this with rfl | rfl | rfl | rfl <;> rfl

/-- Witness for `c4_round_trip` on "ACGTACGTAC" and "AUGCAUGCAU". -/
theorem c4_round_trip_witness :
    reverseComplementOf (reverseComplementOf ex10) = ex10 ∧
    reverseComplementOf (reverseComplementOf rna10) = rna10 :=
  ⟨c4_round_trip.1 ex10 (by decide),
   c4_round_trip.2 rna10 (by decide) (by decide) (by decide)⟩

/-- Claim C8.  The engine never partially completes: an empty sequence
yields the typed failure (which carries no statistics fields), and any
other sequence yields a record in which every field of the data model is
populated with its defining formula over that same sequence. -/
theorem c8_all_or_nothing (s : List Char) :
    (s = [] ∧ analyze s = Except.error ComputationError.zeroLength) ∨
    (∃ r, analyze s = Except.ok r ∧
      r.length = s.length ∧
      r.sequence = s ∧
      r.sequence_type = (if isRNA s then "RNA" else "DNA") ∧
      r.gc_content = ((s.count 'G' + s.count 'C' : ℚ) / (s.length : ℚ)) * 100 ∧
      r.at_skew = ((s.count 'A' : ℚ) - (s.count 'T' : ℚ)) /
        ((s.count 'A' : ℚ) + (s.count 'T' : ℚ) + 1 / 1000000) ∧
      r.gc_skew = ((s.count 'G' : ℚ) - (s.count 'C' : ℚ)) /
        ((s.count 'G' : ℚ) + (s.count 'C' : ℚ) + 1 / 1000000) ∧
      (∀ c, r.nucleotide_counts c = s.count c) ∧
      (∀ c, r.nucleotide_percentages c = ((s.count c : ℚ) / (s.length : ℚ)) * 100) ∧
      (∀ w, r.codon_counts w = (codons s).count w) ∧
      r.n_count = s.count 'N' ∧
      r.filtered_sequence = s.filter (fun c => c != 'N') ∧
      r.complement = s.map (complementChar (isRNA s)) ∧
      r.reverse_complement = (s.map (complementChar (isRNA s))).reverse ∧
      r.transcription =
        (if isRNA s then s else s.map (fun c => if c = 'T' then 'U' else c))) := by
  by_cases hs : s.length = 0
  · left
    have hnil : s = [] := List.eq_nil_of_length_eq_zero hs
    subst hnil
    exact ⟨rfl, rfl⟩
  · right
    unfold analyze
    rw [if_neg hs]
    exact ⟨_, rfl, rfl, rfl, rfl, rfl, rfl, rfl, fun _ => rfl, fun _ => rfl, fun _ => rfl,
      rfl, rfl, rfl, rfl, rfl⟩

/-- Claim C9.  For a DNA-classified sequence (no 'U'), transcription
replaces every 'T' with 'U' so the result contains no 'T'; for an
RNA-classified sequence it is the identity; and the engine's
transcription field is exactly this transformation. -/
theorem c9_transcription (s : List Char) :
    (isRNA s = false →
      transcriptionOf s = s.map (fun c => if c = 'T' then 'U' else c) ∧
      'T' ∉ transcriptionOf s) ∧
    (isRNA s = true → transcriptionOf s = s) ∧
    (∀ r, analyze s = Except.ok r → r.transcription = transcriptionOf s) := by
  refine ⟨?_, ?_, ?_⟩
  · intro h
    have he : transcriptionOf s = s.map (fun c => if c = 'T' then 'U' else c) := by
      rw [transcriptionOf, h]
      simp
    refine ⟨he, ?_⟩
    rw [he]
    intro hmem
    obtain ⟨c, _, hc⟩ := List.mem_map.mp hmem
    by_cases hT : c = 'T'
    · subst hT; simp at hc
    · rw [if_neg hT] at hc; exact hT hc
  · intro h
    rw [transcriptionOf, h]
    simp
  · intro r h
    unfold analyze at h
    by_cases hs : s.length = 0
    · rw [if_pos hs] at h; exact Except.noConfusion h
    · rw [if_neg hs] at h
      injection h with h
      subst h
      rfl

/-- Witness for `c9_transcription` on "ACGTACGTAC" (DNA) and
"UUUUUUUUUT" (RNA). -/
theorem c9_transcription_witness :
    'T' ∉ transcriptionOf ex10 ∧
    transcriptionOf rnaT = rnaT ∧
    ∃ r, analyze ex10 = Except.ok r ∧ r.transcription = transcriptionOf ex10 :=
  ⟨((c9_transcription ex10).1 (by decide)).2,
   (c9_transcription rnaT).2.1 (by decide),
   ⟨_, rfl, (c9_transcription ex10).2.2 _ rfl⟩⟩

/-- Claim C10.  The FASTA export writes the header line made of `>` and
the label, then the body in chunks taken at offsets 0, 80, 160, ...,
each line terminated by a newline; the chunks concatenate back to the
sequence, each has at most 80 characters, every non-final chunk has
exactly 80, and a 90-character sequence yields exactly two body lines
of 80 and 10 characters. -/
theorem c10_fasta_export :
    (∀ label s, fastaFile label s =
      ('>' :: label) ++ '\n' :: (fastaBody s).flatMap (fun l => l ++ ['\n'])) ∧
    (∀ s, fastaBody s =
      (List.range ((s.length + 79) / 80)).map (fun k => (s.drop (80 * k)).take 80)) ∧
    (∀ s, (fastaBody s).flatten = s) ∧
    (∀ s l, l ∈ fastaBody s → l.length ≤ 80) ∧
    (∀ s k l, k + 1 < (fastaBody s).length → (fastaBody s)[k]? = some l →
      l.length = 80) ∧
    (∀ s : List Char, s.length = 90 →
      (fastaBody s).length = 2 ∧ (fastaBody s).map List.length = [80, 10]) := by
  refine ⟨?_, fastaBody_eq, fastaBody_flatten, ?_, ?_, ?_⟩
  · intro label s
    unfold fastaFile
    simp
  · intro s l hl
    rw [fastaBody_eq] at hl
    obtain ⟨k, _, rfl⟩ := List.mem_map.mp hl
    simp [List.length_take]
  · intro s k l h hl
    rw [fastaBody_eq] at h hl
    simp only [List.length_map, List.length_range] at h
    rw [List.getElem?_map, List.getElem?_range (by omega)] at hl
    simp only [Option.map_some', Option.some.injEq] at hl
    subst hl
    simp only [List.length_take, List.length_drop]
    omega
  · intro s h
    constructor
    · rw [fastaBody_eq, h]
      norm_num
    · rw [fastaBody_eq, h]
      have h2 : (90 + 79) / 80 = 2 := by norm_num
      rw [h2]
      have hr : List.range 2 = [0, 1] := rfl
      rw [hr]
      simp [List.length_take, List.length_drop, h]

/-- Witness for `c10_fasta_export` on the 90-character sequence. -/
theorem c10_fasta_export_witness :
    (List.replicate 80 'A').length ≤ 80 ∧
    (List.replicate 80 'A').length = 80 ∧
    (fastaBody seq90).length = 2 ∧ (fastaBody seq90).map List.length = [80, 10] :=
  ⟨c10_fasta_export.2.2.2.1 seq90 (List.replicate 80 'A') (by decide),
   c10_fasta_export.2.2.2.2.1 seq90 0 (List.replicate 80 'A') (by decide) (by decide),
   (c10_fasta_export.2.2.2.2.2 seq90 rfl).1,
   (c10_fasta_export.2.2.2.2.2 seq90 rfl).2⟩

end Genetic
